import Mathlib

/-!
Shallow embedding of the ArcaneOS intent-routing core.

Sources embedded here:
* `ArcaneOS/core/event_bus.py`   — `ArcaneEventBus` (bounded history, `emit`,
  `get_recent_events`).
* `ArcaneOS/core/safety.py`      — `validate_archon_payload`, `_redact_paths`,
  `_log_rejection`, `REDACT_PATTERN`.
* `ArcaneOS/core/archon_router.py` — `ArchonDecision`, `_apply_latency_policy`,
  `_decision_from_spell_parser`, latency budgets.
* `app/services/daemon_registry.py` — `DaemonRegistry` lifecycle
  (`summon` / `invoke_daemon` / `banish_daemon`), `_safe_create_task`.
* `app/services/raindrop_client.py` — `RaindropMCPClient.invoke_tool`.
* `app/services/spell_parser.py` — `SpellParser` (regex rule table, alias
  normalization, `extract_parameters`, `parse`).

Machine reals (Python floats) that only flow through comparisons and sums are
modelled as `Rat`; Python strings are Lean `String`s, with character-level
machinery working on `List Char`.
-/

namespace ArcaneOS

/-! ### Character and string helpers (Python semantics) -/

/-- Python's ASCII `\s` class: the whitespace characters recognised by `re`
for the patterns in this code base (space, tab, LF, CR, VT, FF). -/
def isPySpace (c : Char) : Bool :=
  c = ' ' || c = '\t' || c = '\n' || c = '\r' || c = '\x0b' || c = '\x0c'

/-- ASCII letter, the `[A-Za-z]` class of `REDACT_PATTERN`. -/
def isAsciiAlpha (c : Char) : Bool :=
  ('a' ≤ c && c ≤ 'z') || ('A' ≤ c && c ≤ 'Z')

/-- ASCII digit. -/
def isAsciiDigit (c : Char) : Bool :=
  '0' ≤ c && c ≤ '9'

/-- The `\w` class used by the spell patterns: `[A-Za-z0-9_]`. -/
def isWordChar (c : Char) : Bool :=
  isAsciiAlpha c || isAsciiDigit c || c = '_'

/-- Python `str.lower()` restricted to the ASCII range, character-wise. -/
def lowerStr (s : List Char) : List Char :=
  s.map Char.toLower

/-- `pat` occurs as a contiguous substring of `s` (Python's `pat in s`). -/
def containsSub (pat s : List Char) : Bool :=
  match s with
  | [] => pat.isEmpty
  | _ :: t => List.isPrefixOf pat s || containsSub pat t

/-- `"shell" in text.lower()` from `validate_archon_payload`. -/
def mentionsShell (text : String) : Bool :=
  containsSub ("shell".data) (lowerStr text.data)

/-! ### `ArcaneOS/core/event_bus.py` -/

/-- `SpellType` enumeration from the event bus. -/
inductive SpellType
  | summonSpell | invokeSpell | banishSpell | revealSpell
  | parseSpell | voiceSpell | routeSpell
deriving DecidableEq, Repr

/-- `ArcaneEvent`: the fields carrying logic (timestamp and metadata are
opaque payload and are represented by a free `meta` string). -/
structure ArcaneEvent where
  spellName : SpellType
  daemonName : Option String
  success : Bool
  description : String
deriving DecidableEq, Repr

/-- The dictionary produced by `ArcaneEvent.to_dict` (the JSON field
names of the observable event schema). -/
structure ArcaneEventDict where
  spell_name : SpellType
  daemon_name : Option String
  success : Bool
  description : String
deriving DecidableEq, Repr

def ArcaneEvent.toDict (e : ArcaneEvent) : ArcaneEventDict :=
  { spell_name := e.spellName
    daemon_name := e.daemonName
    success := e.success
    description := e.description }

/-- `ArcaneEventBus`: history list plus the `_max_history` bound (100 in
`__init__`).  Subscriber fan-out is not needed by the claims settled here. -/
structure ArcaneEventBus where
  eventHistory : List ArcaneEvent
  maxHistory : Nat
deriving DecidableEq, Repr

/-- `ArcaneEventBus()` constructor: empty history, `_max_history = 100`. -/
def ArcaneEventBus.new : ArcaneEventBus :=
  { eventHistory := [], maxHistory := 100 }

/-- `emit`: `self._event_history.append(event)` then
`if len(...) > self._max_history: self._event_history.pop(0)`. -/
def ArcaneEventBus.emit (bus : ArcaneEventBus) (e : ArcaneEvent) : ArcaneEventBus :=
  let h := bus.eventHistory ++ [e]
  { bus with eventHistory := if bus.maxHistory < h.length then h.tail else h }

/-- Emit a whole list of events in order. -/
def ArcaneEventBus.emitAll (bus : ArcaneEventBus) (es : List ArcaneEvent) : ArcaneEventBus :=
  es.foldl ArcaneEventBus.emit bus

/-- Python list slice `l[start:]` for an arbitrary integer `start`
(negative indices count from the end, clamped at 0; positive ones are
clamped at `len(l)`). -/
def pySliceFrom (l : List α) (start : Int) : List α :=
  if start < 0 then l.drop (max 0 (l.length + start)).toNat
  else l.drop (min start l.length).toNat

/-- `get_recent_events`: `[event.to_dict() for event in self._event_history[-count:]]`. -/
def ArcaneEventBus.get_recent_events (bus : ArcaneEventBus) (count : Int) : List ArcaneEventDict :=
  (pySliceFrom bus.eventHistory (-count)).map ArcaneEvent.toDict

/-! ### `ArcaneOS/core/safety.py` -/

/-- Length of the maximal `[^\s]+` run at the head of `s` (the greedy tail of
both alternatives of `REDACT_PATTERN`). -/
def countNonSpace (s : List Char) : Nat :=
  (s.takeWhile (fun c => !isPySpace c)).length

/-- Length of the match of the second alternative `/[^\s]+` of
`REDACT_PATTERN` at the head of `s` (0 when it does not match). -/
def posixMatchLen : List Char → Nat
  | [] => 0
  | c :: rest =>
    if c = '/' then
      if countNonSpace rest = 0 then 0 else 1 + countNonSpace rest
    else 0

/-- Length of the match of the first alternative `[A-Za-z]:\\[^\s]+` of
`REDACT_PATTERN` at the head of `s` (0 when it does not match). -/
def driveMatchLen : List Char → Nat
  | [] => 0
  | c₁ :: rest₁ =>
    if isAsciiAlpha c₁ then
      match rest₁ with
      | [] => 0
      | c₂ :: rest₂ =>
        if c₂ = ':' then
          match rest₂ with
          | [] => 0
          | c₃ :: rest₃ =>
            if c₃ = '\\' then
              if countNonSpace rest₃ = 0 then 0 else 3 + countNonSpace rest₃
            else 0
        else 0
    else 0

/-- Length of the `REDACT_PATTERN` match starting at the head of `s`:
the alternation tries the drive alternative first, then the POSIX one. -/
def redactMatchLen (s : List Char) : Nat :=
  if driveMatchLen s = 0 then posixMatchLen s else driveMatchLen s

/-- The fixed replacement text of `_redact_paths`. -/
def redactMarker : List Char := "[path-redacted]".data

/-- `re.sub` scan of `REDACT_PATTERN`: at each position, if a match starts
there emit the marker and skip the match, otherwise copy one character.
Every step consumes at least one character, so structural fuel equal to the
input length is always sufficient (the fuel-exhausted arm is unreachable
whenever `s.length ≤ fuel`). -/
def redactGoF : Nat → List Char → List Char
  | _, [] => []
  | 0, s => s
  | fuel + 1, c :: rest =>
    if redactMatchLen (c :: rest) = 0 then c :: redactGoF fuel rest
    else redactMarker ++ redactGoF fuel ((c :: rest).drop (redactMatchLen (c :: rest)))

def redactGo (s : List Char) : List Char :=
  redactGoF s.length s

/-- `_redact_paths(text)`. -/
def redactPaths (s : String) : String :=
  ⟨redactGo s.data⟩

/-- `s` contains a substring that `REDACT_PATTERN` would match (an absolute
POSIX path `/...` or a Windows drive path `X:\...`). -/
def containsPathLike : List Char → Bool
  | [] => false
  | c :: rest => (redactMatchLen (c :: rest) != 0) || containsPathLike rest

/-- The `intent` literal enum of `ArchonDirective`. -/
inductive ArchonIntent
  | summonA | invokeA | banishA | revealA
deriving DecidableEq, Repr

/-- The `daemon` literal enum of `ArchonDirective`. -/
inductive ArchonDaemonField
  | claudeF | geminiF | liquidmetalF | noneF
deriving DecidableEq, Repr

/-- `SafetySettings` pydantic model. -/
structure SafetySettings where
  allow_shell : Bool := false
  allow_net : Bool := false
deriving DecidableEq, Repr

/-- `StyleSettings` pydantic model (`voice` is a 3-value literal enum;
it carries no logic here and is kept as its string value). -/
structure StyleSettings where
  fantasy : Bool := true
  voice : String := "archon"
deriving DecidableEq, Repr

/-- `ArchonDirective` pydantic model, after a successful schema parse.
`parameters` is an untyped payload dict; it is carried as an opaque
association list since no claim inspects it. -/
structure ArchonDirective where
  intent : ArchonIntent
  daemon : ArchonDaemonField
  task : String
  safety : SafetySettings
  style : StyleSettings
  parameters : Option (List (String × String)) := none
  plan : List String
deriving DecidableEq, Repr

/-- One `_log_rejection` line: `{"event": "REJECTED_PAYLOAD", "reason": ...}`
(the raw payload echoed into the log is the function's own input and is not
duplicated here). -/
structure AuditEntry where
  event : String
  reason : String
deriving DecidableEq, Repr

/-- The two `ValueError`s `validate_archon_payload` can raise. -/
inductive ArchonValidationError
  | invalidDirective   -- "Invalid Archon directive" (schema_validation_error)
  | shellDisallowed    -- "Shell execution requested but disallowed"
deriving DecidableEq, Repr

/-- `validate_archon_payload(payload, fantasy_mode)`.  The pydantic
`ArchonDirective.parse_obj` step is the external schema check; its outcome is
the `parsed` argument.  Returns the validation outcome together with the list
of audit-log lines appended by `_log_rejection` during the call. -/
def validate_archon_payload (parsed : Except String ArchonDirective)
    (fantasy_mode : Bool) :
    Except ArchonValidationError ArchonDirective × List AuditEntry :=
  match parsed with
  | .error _ =>
      (.error .invalidDirective, [⟨"REJECTED_PAYLOAD", "schema_validation_error"⟩])
  | .ok directive =>
      if !directive.safety.allow_shell
          && (directive.task :: directive.plan).any mentionsShell then
        (.error .shellDisallowed, [⟨"REJECTED_PAYLOAD", "shell_command_disallowed"⟩])
      else
        let cleaned :=
          if fantasy_mode then
            { directive with plan := directive.plan.map redactPaths }
          else
            { directive with style := { directive.style with fantasy := false } }
        (.ok cleaned, [])

/-! ### `app/services/raindrop_client.py` -/

/-- `DaemonType` enum from `app/models/daemon.py`. -/
inductive DaemonType
  | claude | gemini | liquidmetal
deriving DecidableEq, Repr

/-- `DaemonType.value`. -/
def DaemonType.value : DaemonType → String
  | .claude => "claude"
  | .gemini => "gemini"
  | .liquidmetal => "liquidmetal"

/-- The `result` slot of an `MCPToolResult`: either the capability's normal
response payload or the `{"error": str(e)}` dict built in the `except` arm
of `invoke_tool`. -/
inductive ToolPayload
  | response (s : String)
  | errorText (s : String)
deriving DecidableEq, Repr

/-- `MCPToolResult` (timestamp omitted; `execution_time` is the measured
wall-clock span, carried as an exact rational). -/
structure MCPToolResult where
  success : Bool
  result : ToolPayload
  execution_time : Rat
deriving DecidableEq, Repr

/-- `RaindropMCPClient`: only its `_registered_tools` keys carry logic for
the claims settled here (the stored configs are opaque payload). -/
structure RaindropMCPClient where
  registered_tools : List String := []
deriving DecidableEq, Repr

/-- `register_tool`: stores the config under `tool_name` and returns `True`
(the `try` body cannot fail). -/
def RaindropMCPClient.register_tool (c : RaindropMCPClient) (tool_name : String) :
    RaindropMCPClient × Bool :=
  ({ registered_tools := tool_name :: c.registered_tools.filter (· ≠ tool_name) }, true)

/-- `unregister_tool`. -/
def RaindropMCPClient.unregister_tool (c : RaindropMCPClient) (tool_name : String) :
    RaindropMCPClient × Bool :=
  if tool_name ∈ c.registered_tools then
    ({ registered_tools := c.registered_tools.filter (· ≠ tool_name) }, true)
  else (c, false)

/-- `invoke_tool(tool_name, task, ...)`.  The backing capability call inside
the `try` block (`_mock_invoke` / the production SDK call) is the external
collaborator; its outcome is the `backing` argument (`.error e` when it raises
an exception with text `e`).  An unregistered tool raises `ValueError`
(modelled as the `.error` return); a backing exception is caught and becomes a
normally returned `MCPToolResult` with `success := false` and the error text
in the result payload. -/
def RaindropMCPClient.invoke_tool (c : RaindropMCPClient) (tool_name : String)
    (backing : Except String String) (elapsed : Rat) : Except String MCPToolResult :=
  if tool_name ∈ c.registered_tools then
    match backing with
    | .ok out => .ok { success := true, result := .response out, execution_time := elapsed }
    | .error e => .ok { success := false, result := .errorText e, execution_time := elapsed }
  else
    .error ("Tool '" ++ tool_name ++ "' is not registered.")

/-! ### `app/services/daemon_registry.py` -/

/-- `Daemon` model (`app/models/daemon.py`); `color_code` and `metadata`
carry no logic for the claims and are omitted. -/
structure Daemon where
  name : DaemonType
  role : String
  is_summoned : Bool := false
  invocation_count : Nat := 0
deriving DecidableEq, Repr

/-- One entry of `DaemonState.invocation_history` (the ISO timestamp and the
truncated `result_summary` strings are presentation payload and omitted). -/
structure InvocationRecord where
  task : String
  execution_time : Rat
  success : Bool
deriving DecidableEq, Repr

/-- `DaemonState` (summon/invocation timestamps omitted). -/
structure DaemonState where
  invocation_history : List InvocationRecord := []
  total_execution_time : Rat := 0
  mcp_registered : Bool := false
deriving DecidableEq, Repr

/-- `DaemonState.record_invocation`. -/
def DaemonState.record_invocation (st : DaemonState) (task : String)
    (result : MCPToolResult) : DaemonState :=
  { st with
    total_execution_time := st.total_execution_time + result.execution_time
    invocation_history := st.invocation_history ++
      [{ task := task, execution_time := result.execution_time, success := result.success }] }

/-- The statistics snapshot built by `DaemonState.get_statistics`
(`round(_, 3)` display rounding omitted; the rationals are exact). -/
structure DaemonStatistics where
  daemon_name : String
  is_active : Bool
  total_invocations : Nat
  total_execution_time : Rat
  average_execution_time : Rat
  mcp_registered : Bool
deriving DecidableEq, Repr

/-- `DaemonState.get_statistics` (reads `self.daemon` for name and
summoned flag). -/
def DaemonState.get_statistics (st : DaemonState) (daemon : Daemon) : DaemonStatistics :=
  { daemon_name := daemon.name.value
    is_active := daemon.is_summoned
    total_invocations := st.invocation_history.length
    total_execution_time := st.total_execution_time
    average_execution_time :=
      if st.invocation_history.isEmpty then 0
      else st.total_execution_time / st.invocation_history.length
    mcp_registered := st.mcp_registered }

/-- A total table with one slot per `DaemonType`: the registry's
`_daemons` / `_daemon_states` dicts always hold exactly these three keys
(`_initialize_daemons` inserts all three and nothing is ever deleted). -/
structure DaemonTable (α : Type) where
  claudeSlot : α
  geminiSlot : α
  liquidmetalSlot : α
deriving DecidableEq, Repr

def DaemonTable.get (t : DaemonTable α) : DaemonType → α
  | .claude => t.claudeSlot
  | .gemini => t.geminiSlot
  | .liquidmetal => t.liquidmetalSlot

def DaemonTable.set (t : DaemonTable α) : DaemonType → α → DaemonTable α
  | .claude, v => { t with claudeSlot := v }
  | .gemini, v => { t with geminiSlot := v }
  | .liquidmetal, v => { t with liquidmetalSlot := v }

/-- The `HTTPException`s the registry raises.  The 404 "unknown to this
realm" branch is unreachable for `DaemonType` arguments because the dicts
always contain all three daemons, so it has no constructor here. -/
inductive RegistryError
  | alreadySummoned          -- 400 "... already walks among us"
  | notSummoned              -- 400 "slumbers in the void" / "not present in this realm"
  | notRegistered            -- 500 "... is not registered with MCP ..."
  | invocationFailed (msg : String)  -- 500 "Invocation failed: ..."
deriving DecidableEq, Repr

/-- `_safe_create_task(coro)`: the source looks up the running loop and then
calls `_safe_create_task(coro)` again (itself) instead of
`loop.create_task(coro)`.  With a running loop this recurses until Python's
recursion limit raises `RecursionError` (a subclass of `RuntimeError`,
swallowed by the `except RuntimeError` arm); without one `get_running_loop`
raises immediately and the arm skips the task.  Either way the coroutine is
never scheduled.  The recursion limit is the explicit `limit` argument; the
result is the list of events the call delivers to the event bus. -/
def safeCreateTask (hasRunningLoop : Bool) (coro : List ArcaneEvent) :
    (limit : Nat) → List ArcaneEvent
  | 0 => []
  | limit + 1 =>
    if hasRunningLoop then safeCreateTask hasRunningLoop coro limit else []

/-- The event built by `ArcaneEventBus.emit_summon` with default description. -/
def emitSummonEvent (daemon_name : String) (success : Bool) : ArcaneEvent :=
  { spellName := .summonSpell
    daemonName := some daemon_name
    success := success
    description :=
      if success then "✨ The runes pulse as " ++ daemon_name.toUpper ++ " materializes."
      else "✨ " ++ daemon_name.toUpper ++ " resists the call." }

/-- The event built by `ArcaneEventBus.emit_invoke` with default description. -/
def emitInvokeEvent (daemon_name task : String) (success : Bool) : ArcaneEvent :=
  { spellName := .invokeSpell
    daemonName := some daemon_name
    success := success
    description :=
      if success then "✨ " ++ daemon_name.toUpper ++ " completes '" ++ task ++ "'."
      else "✨ " ++ daemon_name.toUpper ++ " falters on '" ++ task ++ "'." }

/-- The event built by `ArcaneEventBus.emit_banish` with default description. -/
def emitBanishEvent (daemon_name : String) (success : Bool) : ArcaneEvent :=
  { spellName := .banishSpell
    daemonName := some daemon_name
    success := success
    description :=
      if success then "✨ " ++ daemon_name.toUpper ++ " returns to the ethereal void."
      else "✨ " ++ daemon_name.toUpper ++ " resists banishment." }

/-- `DaemonRegistry` (the voice service and the grimoire JSON-lines log are
external collaborators whose calls have no effect on this state). -/
structure DaemonRegistry where
  daemons : DaemonTable Daemon
  daemon_states : DaemonTable DaemonState
  mcp_client : RaindropMCPClient
deriving DecidableEq, Repr

/-- The registry built by `__init__` / `_initialize_daemons`. -/
def DaemonRegistry.init : DaemonRegistry :=
  { daemons :=
      { claudeSlot := { name := .claude, role := "Keeper of Logic and Reason" }
        geminiSlot := { name := .gemini, role := "Weaver of Dreams and Innovation" }
        liquidmetalSlot := { name := .liquidmetal, role := "Master of Transformation and Flow" } }
    daemon_states := { claudeSlot := {}, geminiSlot := {}, liquidmetalSlot := {} }
    mcp_client := {} }

/-- `DaemonRegistry.summon(daemon_name)`.  `hasRunningLoop` and `limit`
parameterize the asyncio context seen by `_safe_create_task`.  Returns the
call's outcome, the updated registry, and the events actually delivered to
the event bus. -/
def DaemonRegistry.summon (reg : DaemonRegistry) (daemon_name : DaemonType)
    (hasRunningLoop : Bool) (limit : Nat) :
    Except RegistryError Daemon × DaemonRegistry × List ArcaneEvent :=
  let daemon := reg.daemons.get daemon_name
  let state := reg.daemon_states.get daemon_name
  if daemon.is_summoned then
    (.error .alreadySummoned, reg,
      safeCreateTask hasRunningLoop [emitSummonEvent daemon_name.value false] limit)
  else
    let daemon' := { daemon with is_summoned := true, invocation_count := 0 }
    -- auto-register with MCP when not yet registered; `register_daemon`
    -- always succeeds because `register_tool` returns `True`
    let client' :=
      if state.mcp_registered then reg.mcp_client
      else (reg.mcp_client.register_tool daemon_name.value).1
    let state' :=
      if state.mcp_registered then state else { state with mcp_registered := true }
    let reg' : DaemonRegistry :=
      { daemons := reg.daemons.set daemon_name daemon'
        daemon_states := reg.daemon_states.set daemon_name state'
        mcp_client := client' }
    (.ok daemon', reg',
      safeCreateTask hasRunningLoop [emitSummonEvent daemon_name.value true] limit)

/-- The dictionary returned by a successful `invoke_daemon`. -/
structure InvokeReturn where
  daemon : Daemon
  result : ToolPayload
  execution_time : Rat
  success : Bool
  invocation_number : Nat
deriving DecidableEq, Repr

/-- `DaemonRegistry.invoke_daemon(name, task, parameters)`.  `backing` is the
outcome of the backing capability call inside `RaindropMCPClient.invoke_tool`
and `elapsed` its measured duration. -/
def DaemonRegistry.invoke_daemon (reg : DaemonRegistry) (name : DaemonType)
    (task : String) (backing : Except String String) (elapsed : Rat)
    (hasRunningLoop : Bool) (limit : Nat) :
    Except RegistryError InvokeReturn × DaemonRegistry × List ArcaneEvent :=
  let daemon := reg.daemons.get name
  let state := reg.daemon_states.get name
  if !daemon.is_summoned then
    (.error .notSummoned, reg,
      safeCreateTask hasRunningLoop [emitInvokeEvent name.value task false] limit)
  else if !state.mcp_registered then
    (.error .notRegistered, reg,
      safeCreateTask hasRunningLoop [emitInvokeEvent name.value task false] limit)
  else
    match reg.mcp_client.invoke_tool name.value backing elapsed with
    | .error e =>
        -- the `ValueError` from an unregistered client tool lands in the
        -- generic `except Exception` arm and is re-raised as a 500
        (.error (.invocationFailed e), reg,
          safeCreateTask hasRunningLoop [emitInvokeEvent name.value task false] limit)
    | .ok result =>
        let daemon' := { daemon with invocation_count := daemon.invocation_count + 1 }
        let state' := state.record_invocation task result
        let reg' : DaemonRegistry :=
          { daemons := reg.daemons.set name daemon'
            daemon_states := reg.daemon_states.set name state'
            mcp_client := reg.mcp_client }
        (.ok { daemon := daemon'
               result := result.result
               execution_time := result.execution_time
               success := result.success
               invocation_number := daemon'.invocation_count },
          reg',
          safeCreateTask hasRunningLoop
            [emitInvokeEvent name.value task result.success] limit)

/-- The dictionary returned by a successful `banish_daemon` (the narration
message string is presentation payload and omitted). -/
structure BanishReturn where
  daemon : Daemon
  statistics : DaemonStatistics
deriving DecidableEq, Repr

/-- `DaemonRegistry.banish_daemon(name)`. -/
def DaemonRegistry.banish_daemon (reg : DaemonRegistry) (name : DaemonType)
    (hasRunningLoop : Bool) (limit : Nat) :
    Except RegistryError BanishReturn × DaemonRegistry × List ArcaneEvent :=
  let daemon := reg.daemons.get name
  let state := reg.daemon_states.get name
  if !daemon.is_summoned then
    (.error .notSummoned, reg,
      safeCreateTask hasRunningLoop [emitBanishEvent name.value false] limit)
  else
    -- statistics are captured before the banishment ritual
    let statistics := state.get_statistics daemon
    let client' :=
      if state.mcp_registered then (reg.mcp_client.unregister_tool name.value).1
      else reg.mcp_client
    let state' := { state with mcp_registered := false }
    let daemon' := { daemon with is_summoned := false }
    let reg' : DaemonRegistry :=
      { daemons := reg.daemons.set name daemon'
        daemon_states := reg.daemon_states.set name state'
        mcp_client := client' }
    (.ok { daemon := daemon', statistics := statistics }, reg',
      safeCreateTask hasRunningLoop [emitBanishEvent name.value true] limit)

/-! ### A small backtracking regex engine

`app/services/spell_parser.py` builds its rule table from `re` patterns
(compiled with `re.IGNORECASE`).  The constructs those patterns use are
embedded here as an AST plus a continuation-passing backtracking matcher with
Python's strategy: leftmost match, left alternative first, greedy `*`/`+`/`?`
with backtracking.  `fuel` bounds the recursion depth; all uses in this file
are on concrete inputs where the supplied fuel is ample. -/

/-- Single-character classes appearing in the spell patterns. -/
inductive CharCls
  | wordC      -- \w  = [A-Za-z0-9_]
  | spaceC     -- \s
  | anyC       -- .   (anything except a newline)
  | nonspaceC  -- \S
deriving DecidableEq, Repr

def CharCls.matchesChar : CharCls → Char → Bool
  | .wordC, c => isWordChar c
  | .spaceC, c => isPySpace c
  | .anyC, c => c ≠ '\n'
  | .nonspaceC, c => !isPySpace c

/-- Regex AST.  `lit` compares case-insensitively (`re.IGNORECASE`);
`notChar c` is the negated class `[^c]`. -/
inductive RE
  | eps
  | lit (c : Char)
  | cls (k : CharCls)
  | notChar (c : Char)
  | cat (a b : RE)
  | alt (a b : RE)
  | star (a : RE)
  | opt (a : RE)
  | group (idx : Nat) (a : RE)
deriving Repr

/-- Captured groups: index paired with captured text (later captures of the
same index shadow earlier ones). -/
abbrev Caps := List (Nat × List Char)

def capsGet (caps : Caps) (idx : Nat) : Option (List Char) :=
  (caps.find? (fun p => p.1 = idx)).map (·.2)

/-- The backtracking matcher.  `k` is the continuation receiving the rest of
the input and the captures; the result carries the rest and captures of the
first (leftmost-greedy) overall success. -/
def reMatch (fuel : Nat) (r : RE) (s : List Char) (caps : Caps)
    (k : List Char → Caps → Option (List Char × Caps)) : Option (List Char × Caps) :=
  match fuel with
  | 0 => none
  | fuel + 1 =>
    match r with
    | .eps => k s caps
    | .lit c =>
      match s with
      | [] => none
      | d :: t => if d.toLower = c.toLower then k t caps else none
    | .cls kc =>
      match s with
      | [] => none
      | d :: t => if kc.matchesChar d then k t caps else none
    | .notChar c =>
      match s with
      | [] => none
      | d :: t => if d ≠ c then k t caps else none
    | .cat a b => reMatch fuel a s caps (fun s' caps' => reMatch fuel b s' caps' k)
    | .alt a b =>
      match reMatch fuel a s caps k with
      | some res => some res
      | none => reMatch fuel b s caps k
    | .opt a =>
      match reMatch fuel a s caps k with
      | some res => some res
      | none => k s caps
    | .star a =>
      match reMatch fuel a s caps (fun s' caps' =>
          if s'.length < s.length then reMatch fuel (.star a) s' caps' k else none) with
      | some res => some res
      | none => k s caps
    | .group idx a =>
      reMatch fuel a s caps (fun s' caps' =>
        k s' ((idx, s.take (s.length - s'.length)) :: caps'))

/-- `re.search` scan: try a match at `pos`, then at `pos+1`, ...  Returns the
absolute start and (exclusive) end of the leftmost match plus its captures. -/
def reSearchAux (fuel : Nat) (r : RE) : Nat → List Char → Option (Nat × Nat × Caps)
  | pos, s =>
    match reMatch fuel r s [] (fun rest caps => some (rest, caps)) with
    | some (rest, caps) => some (pos, pos + (s.length - rest.length), caps)
    | none =>
      match s with
      | [] => none
      | _ :: t => reSearchAux fuel r (pos + 1) t

/-- `pattern.search(text)`, honouring a leading `^` anchor. -/
def reSearch (fuel : Nat) (r : RE) (anchored : Bool) (s : List Char) :
    Option (Nat × Nat × Caps) :=
  if anchored then
    match reMatch fuel r s [] (fun rest caps => some (rest, caps)) with
    | some (rest, caps) => some (0, s.length - rest.length, caps)
    | none => none
  else reSearchAux fuel r 0 s

/-- `re.finditer`: successive non-overlapping leftmost matches.  `steps`
bounds the number of matches (input length + 1 suffices: every pattern used
here consumes at least one character per match). -/
def reFindIter (fuel : Nat) (r : RE) : (steps : Nat) → Nat → List Char →
    List (Nat × Nat × Caps)
  | 0, _, _ => []
  | steps + 1, pos, s =>
    match reSearchAux fuel r pos s with
    | none => []
    | some (start, stop, caps) =>
      if stop ≤ start then []   -- empty-match guard, unreachable for these patterns
      else (start, stop, caps) :: reFindIter fuel r steps stop (s.drop (stop - pos))

/-- Sequence a list of regexes. -/
def reSeq (rs : List RE) : RE := rs.foldr RE.cat .eps

/-- A literal word, character by character. -/
def reOfStr (s : String) : RE := reSeq (s.data.map RE.lit)

/-- Greedy `+`. -/
def rePlus (r : RE) : RE := .cat r (.star r)

/-- `\s+`. -/
def splus : RE := rePlus (.cls .spaceC)

/-- `(\w+)` captured as group `i`. -/
def wgroup (i : Nat) : RE := .group i (rePlus (.cls .wordC))

/-- `(.+)` captured as group `i`. -/
def dotPlusGroup (i : Nat) : RE := .group i (rePlus (.cls .anyC))

/-- `(?:the\s+)?`. -/
def optThe : RE := .opt (reSeq [reOfStr "the", splus])

/-! ### `app/services/spell_parser.py` -/

/-- `SpellAction` enumeration. -/
inductive SpellAction
  | summonS | invokeS | banishS | queryS
deriving DecidableEq, Repr

def SpellAction.value : SpellAction → String
  | .summonS => "summon"
  | .invokeS => "invoke"
  | .banishS => "banish"
  | .queryS => "query"

/-- A coerced `with key=value` parameter.  `floatV` keeps the literal text
accepted by Python's `float()`; no float arithmetic happens downstream. -/
inductive ParamValue
  | boolV (b : Bool)
  | intV (n : Nat)
  | floatV (raw : String)
  | strV (s : String)
deriving DecidableEq, Repr

/-- `ParsedSpell` dataclass. -/
structure ParsedSpell where
  action : SpellAction
  daemon : Option String := none
  task : Option String := none
  parameters : Option (List (String × ParamValue)) := none
  confidence : Rat := 1
  raw_input : String := ""
deriving DecidableEq, Repr

/-- `SpellPattern`: compiled regex, its action, the field→group mapping and
the priority.  `anchored` records a leading `^` in the source pattern. -/
structure SpellPattern where
  re : RE
  anchored : Bool := false
  action : SpellAction
  groups : List (String × Nat)
  priority : Nat

/-- Python `str.strip()` (both ends, whitespace). -/
def pyStrip (s : List Char) : List Char :=
  ((s.dropWhile isPySpace).reverse.dropWhile isPySpace).reverse

/-- Python `str.strip(chars)`. -/
def pyStripChars (chars : List Char) (s : List Char) : List Char :=
  ((s.dropWhile (chars.contains ·)).reverse.dropWhile (chars.contains ·)).reverse

/-- `SpellPattern.match(text)`: `search`, then keep each mapped group whose
raw capture is truthy, stripped. -/
def SpellPattern.matchText (p : SpellPattern) (fuel : Nat) (text : List Char) :
    Option (List (String × List Char)) :=
  match reSearch fuel p.re p.anchored text with
  | none => none
  | some (_, _, caps) =>
    some (p.groups.foldl (fun acc fg =>
      match capsGet caps fg.2 with
      | some v => if v ≠ [] then acc ++ [(fg.1, pyStrip v)] else acc
      | none => acc) [])

/-- The pattern table of `_initialize_patterns`, in insertion order. -/
def spellPatternTable : List SpellPattern :=
  [ -- INVOKE patterns
    { re := reSeq [reOfStr "invoke", splus, wgroup 1, splus, reOfStr "to", splus,
                   dotPlusGroup 2],
      action := .invokeS, groups := [("daemon", 1), ("task", 2)], priority := 100 },
    { re := reSeq [reOfStr "ask", splus, wgroup 1, splus, reOfStr "to", splus,
                   dotPlusGroup 2],
      action := .invokeS, groups := [("daemon", 1), ("task", 2)], priority := 95 },
    { re := reSeq [reOfStr "tell", splus, wgroup 1, splus, reOfStr "to", splus,
                   dotPlusGroup 2],
      action := .invokeS, groups := [("daemon", 1), ("task", 2)], priority := 95 },
    { re := reSeq [reOfStr "command", splus, wgroup 1, .lit ':', .star (.cls .spaceC),
                   dotPlusGroup 2],
      action := .invokeS, groups := [("daemon", 1), ("task", 2)], priority := 90 },
    { re := reSeq [wgroup 1, .lit ',', splus, dotPlusGroup 2], anchored := true,
      action := .invokeS, groups := [("daemon", 1), ("task", 2)], priority := 50 },
    { re := reSeq [reOfStr "invoke", splus, wgroup 1, splus, reOfStr "for", splus,
                   dotPlusGroup 2],
      action := .invokeS, groups := [("daemon", 1), ("task", 2)], priority := 85 },
    -- SUMMON patterns
    { re := reSeq [reOfStr "summon", splus, optThe, wgroup 1,
                   .opt (reSeq [splus, reOfStr "daemon"])],
      action := .summonS, groups := [("daemon", 1)], priority := 80 },
    { re := reSeq [reOfStr "call", splus, reOfStr "forth", splus, optThe, wgroup 1],
      action := .summonS, groups := [("daemon", 1)], priority := 75 },
    { re := reSeq [reOfStr "materialize", splus, optThe, wgroup 1],
      action := .summonS, groups := [("daemon", 1)], priority := 75 },
    { re := reSeq [reOfStr "awaken", splus, optThe, wgroup 1],
      action := .summonS, groups := [("daemon", 1)], priority := 75 },
    { re := reSeq [reOfStr "bring", splus, optThe, wgroup 1, splus, reOfStr "to",
                   splus, reOfStr "life"],
      action := .summonS, groups := [("daemon", 1)], priority := 70 },
    -- BANISH patterns
    { re := reSeq [reOfStr "banish", splus, optThe, wgroup 1,
                   .opt (reSeq [splus, reOfStr "daemon"])],
      action := .banishS, groups := [("daemon", 1)], priority := 80 },
    { re := reSeq [reOfStr "dismiss", splus, optThe, wgroup 1],
      action := .banishS, groups := [("daemon", 1)], priority := 75 },
    { re := reSeq [reOfStr "send", splus, optThe, wgroup 1, splus, reOfStr "back"],
      action := .banishS, groups := [("daemon", 1)], priority := 75 },
    { re := reSeq [reOfStr "release", splus, optThe, wgroup 1],
      action := .banishS, groups := [("daemon", 1)], priority := 70 },
    -- QUERY patterns
    { re := reSeq [reOfStr "show", splus, .opt (reSeq [reOfStr "me", splus]),
                   .opt (reSeq [reOfStr "all", splus]), optThe, reOfStr "daemon",
                   .opt (.lit 's')], anchored := true,
      action := .queryS, groups := [], priority := 95 },
    { re := reSeq [reOfStr "list", splus, .opt (reSeq [reOfStr "all", splus]), optThe,
                   reOfStr "daemon", .opt (.lit 's')], anchored := true,
      action := .queryS, groups := [], priority := 95 },
    { re := reSeq [reOfStr "what", splus, reOfStr "daemon", .opt (.lit 's'), splus,
                   .opt (reSeq [reOfStr "are", splus]), reOfStr "active"],
      anchored := true,
      action := .queryS, groups := [], priority := 90 },
    { re := reSeq [reOfStr "status", splus, reOfStr "of", splus, optThe,
                   dotPlusGroup 1],
      action := .queryS, groups := [("daemon", 1)], priority := 65 },
    { re := reSeq [reOfStr "check", splus, .opt (reSeq [reOfStr "on", splus]), optThe,
                   dotPlusGroup 1],
      action := .queryS, groups := [("daemon", 1)], priority := 60 } ]

/-- Stable insertion into a priority-descending list (an earlier element stays
ahead of later elements of equal priority, as Python's stable `list.sort`). -/
def insertByPriorityDesc (p : SpellPattern) : List SpellPattern → List SpellPattern
  | [] => [p]
  | q :: t => if q.priority ≤ p.priority then p :: q :: t else q :: insertByPriorityDesc p t

/-- `self.patterns.sort(key=lambda p: p.priority, reverse=True)`. -/
def sortedSpellPatterns : List SpellPattern :=
  spellPatternTable.foldr insertByPriorityDesc []

/-- `DAEMON_ALIASES`, in insertion order. -/
def DAEMON_ALIASES : List (String × List String) :=
  [("claude", ["claude", "logic keeper", "reasoner", "analyzer"]),
   ("gemini", ["gemini", "creative", "innovator", "dreamer"]),
   ("liquidmetal", ["liquidmetal", "liquid metal", "transformer", "shapeshifter"])]

/-- `normalize_daemon_name`: lower+strip, exact alias lookup, substring
containment fallback in either direction, else the lowered token itself. -/
def normalize_daemon_name (raw_name : String) : String :=
  let nameLower := pyStrip (lowerStr raw_name.data)
  match DAEMON_ALIASES.find? (fun ca => ca.2.any (fun a => a.data = nameLower)) with
  | some ca => ca.1
  | none =>
    match DAEMON_ALIASES.find? (fun ca =>
        ca.2.any (fun a => containsSub a.data nameLower || containsSub nameLower a.data)) with
    | some ca => ca.1
    | none => ⟨nameLower⟩

/-- `param_pattern = re.compile(r"with\s+(\w+)\s*=\s*(?:\"([^\"]*)\"|'([^']*)'|(\S+))")`. -/
def paramRE : RE :=
  reSeq [reOfStr "with", splus, wgroup 1, .star (.cls .spaceC), .lit '=',
         .star (.cls .spaceC),
         .alt (reSeq [.lit '"', .group 2 (.star (.notChar '"')), .lit '"'])
           (.alt (reSeq [.lit '\'', .group 3 (.star (.notChar '\'')), .lit '\''])
             (.group 4 (rePlus (.cls .nonspaceC))))]

/-- Python `str.isdigit()` restricted to the ASCII digits that `int()` then
accepts. -/
def pyIsDigit (s : List Char) : Bool :=
  !s.isEmpty && s.all isAsciiDigit

def digitsToNat (s : List Char) : Nat :=
  s.foldl (fun n c => 10 * n + (c.toNat - '0'.toNat)) 0

/-- One-or-more ASCII digits with `_` allowed between digits, as accepted by
CPython's number parser. -/
def digitRun : List Char → Option (List Char)
  | c :: rest =>
    if isAsciiDigit c then
      some (go rest)
    else none
  | [] => none
where
  go : List Char → List Char
  | c :: rest =>
    if isAsciiDigit c then go rest
    else if c = '_' then
      match rest with
      | d :: rest' => if isAsciiDigit d then go rest' else c :: rest
      | [] => c :: rest
    else c :: rest
  | [] => []

/-- Modelled from CPython's `float(str)` acceptor (an external library call):
optional surrounding whitespace, optional sign, then `inf`/`infinity`/`nan`
(case-insensitively) or a decimal literal `digits[.digits?] | .digits` with
an optional `e[sign]digits` exponent; underscores may separate digits. -/
def pyFloatAcceptable (s : List Char) : Bool :=
  let core := pyStrip s
  let core := match core with
    | c :: t => if c = '+' || c = '-' then t else core
    | [] => core
  let lower := lowerStr core
  if lower = "inf".data || lower = "infinity".data || lower = "nan".data then true
  else
    let afterMant : Option (List Char) :=
      match digitRun core with
      | some rest =>
        match rest with
        | '.' :: rest' =>
          match digitRun rest' with
          | some rest'' => some rest''
          | none => some rest'
        | _ => some rest
      | none =>
        match core with
        | '.' :: rest' =>
          match digitRun rest' with
          | some rest'' => some rest''
          | none => none
        | _ => none
    match afterMant with
    | none => false
    | some rest =>
      match rest with
      | [] => true
      | e :: rest' =>
        if e = 'e' || e = 'E' then
          let rest'' := match rest' with
            | c :: t => if c = '+' || c = '-' then t else rest'
            | [] => rest'
          match digitRun rest'' with
          | some [] => true
          | _ => false
        else false

/-- The value-coercion chain of `extract_parameters`: boolean literal, then
all-digit integer, then `float()`-parseable, else the raw string. -/
def coerceParamValue (v : List Char) : ParamValue :=
  let lower := lowerStr v
  if lower = "true".data || lower = "false".data then .boolV (lower = "true".data)
  else if pyIsDigit v then .intV (digitsToNat v)
  else if pyFloatAcceptable v then .floatV ⟨v⟩
  else .strV ⟨v⟩

/-- Python ordered-dict assignment `d[k] = v`: overwrite in place, else
append. -/
def dictSet (l : List (String × ParamValue)) (k : String) (v : ParamValue) :
    List (String × ParamValue) :=
  if l.any (fun p => p.1 = k) then
    l.map (fun p => if p.1 = k then (k, v) else p)
  else l ++ [(k, v)]

/-- Python `str.replace(old, '')` with non-empty `old`: removes every
occurrence, scanning left to right.  Each step consumes at least one
character, so structural fuel equal to the input length suffices. -/
def removeAllSubF (pat : List Char) : Nat → List Char → List Char
  | _, [] => []
  | 0, s => s
  | fuel + 1, c :: t =>
    if pat ≠ [] ∧ List.isPrefixOf pat (c :: t) then
      removeAllSubF pat fuel ((c :: t).drop pat.length)
    else c :: removeAllSubF pat fuel t

def removeAllSub (pat s : List Char) : List Char :=
  removeAllSubF pat s.length s

/-- `re.sub(r'\s+', ' ', s)` via a previous-character-was-whitespace flag:
every maximal whitespace run becomes a single space. -/
def collapseGo : Bool → List Char → List Char
  | _, [] => []
  | prevSpace, c :: t =>
    if isPySpace c then
      if prevSpace then collapseGo true t else ' ' :: collapseGo true t
    else c :: collapseGo false t

def collapseSpaces (s : List Char) : List Char :=
  collapseGo false s

/-- `SpellParser.extract_parameters(task_description)`: run `finditer` with
`param_pattern` over the raw task, coerce each value (first participating
group among 2–4), store it under the key, and strip each whole match out of
the running task text; finally collapse whitespace and strip `' ,;'`. -/
def extract_parameters (fuel : Nat) (task_description : String) :
    String × List (String × ParamValue) :=
  let s := task_description.data
  let ms := reFindIter fuel paramRE (s.length + 1) 0 s
  let out := ms.foldl (fun (acc : List Char × List (String × ParamValue)) m =>
    let caps := m.2.2
    match capsGet caps 1 with
    | none => acc
    | some pname =>
      match ((capsGet caps 2).or ((capsGet caps 3).or (capsGet caps 4))) with
      | none => acc
      | some v =>
        let whole := (s.drop m.1).take (m.2.1 - m.1)
        (pyStrip (removeAllSub whole acc.1),
         dictSet acc.2 ⟨pname⟩ (coerceParamValue v)))
    (s, [])
  (⟨pyStripChars [' ', ',', ';'] (collapseSpaces out.1)⟩, out.2)

/-- Python's two-argument `min` (returns the first argument on ties). -/
def pyMinRat (a b : Rat) : Rat := if b < a then b else a

/-- `SpellParser.parse(spell_text)`: reject blank input, then try the
priority-sorted patterns in order; the first match fixes action, daemon
(normalized), task and parameters (extracted), and confidence
`min(1.0, priority / 100.0)`. -/
def SpellParser.parse (fuel : Nat) (spell_text : String) : Except String ParsedSpell :=
  if pyStrip spell_text.data = [] then .error "Empty spell text provided."
  else
    let cleaned := pyStrip spell_text.data
    match sortedSpellPatterns.findSome?
        (fun p => (p.matchText fuel cleaned).map (fun f => (p, f))) with
    | none => .error ("Unable to parse spell: '" ++ String.mk cleaned ++ "'.")
    | some (p, fields) =>
      let daemonName := ((fields.find? (fun f => f.1 = "daemon")).map
        (fun f => normalize_daemon_name ⟨f.2⟩))
      let taskPair := ((fields.find? (fun f => f.1 = "task")).map
        (fun f => extract_parameters fuel ⟨f.2⟩))
      .ok { action := p.action
            daemon := daemonName
            task := taskPair.map (·.1)
            parameters := taskPair.map (·.2)
            confidence := pyMinRat 1 ((p.priority : Rat) / 100)
            raw_input := ⟨cleaned⟩ }

/-! ### `ArcaneOS/core/archon_router.py` -/

def SIMPLE_LATENCY_BUDGET : Rat := 6/ 10

def CODEGEN_LATENCY_BUDGET : Rat := 5 / 2

/-- `ArchonDecision` dataclass.  The `raw` and `parsed_summary` dicts are
untyped echo payload; `parsed_confidence` keeps the one datum of
`parsed_summary` a claim refers to (the spell parser's own confidence as
serialized by `parsed.to_dict()`). -/
structure ArchonDecision where
  intent : String
  target_daemon : Option DaemonType := none
  task : Option String := none
  parameters : List (String × ParamValue) := []
  plan : List String := []
  narration : String := ""
  reasoning : String := ""
  confidence : Option Rat := none
  fallback_used : Bool := false
  parsed_confidence : Option Rat := none
deriving DecidableEq, Repr

/-- The `is_codegen` classifier of `_apply_latency_policy`. -/
def ArchonDecision.is_codegen (d : ArchonDecision) : Bool :=
  d.intent = "invoke" && d.target_daemon = some DaemonType.claude

/-- `_apply_latency_policy(decision, latency)` (the in-place mutation is the
returned record; the mirror write to `decision.raw["daemon"]` touches only
the omitted echo payload). -/
def applyLatencyPolicy (d : ArchonDecision) (latency : Rat) : ArchonDecision :=
  let is_codegen := d.is_codegen
  let simple_spell := !is_codegen
  if simple_spell && decide (SIMPLE_LATENCY_BUDGET < latency) then
    { d with fallback_used := true
             plan := "Latency exceeded simple budget; rerouting to LiquidMetal." :: d.plan
             target_daemon := some .liquidmetal }
  else if is_codegen && decide (CODEGEN_LATENCY_BUDGET < latency) then
    { d with fallback_used := true
             plan := "Codegen latency too high; delegating to LiquidMetal summary." :: d.plan
             target_daemon := some .liquidmetal }
  else d

/-- `DaemonType(value)` with its `try/except ValueError` wrapper. -/
def daemonTypeOfString : String → Option DaemonType
  | "claude" => some .claude
  | "gemini" => some .gemini
  | "liquidmetal" => some .liquidmetal
  | _ => none

/-- `_decision_from_spell_parser(spell_text)`: the pattern-matcher fallback
path.  `fantasyMode` is `is_fantasy_mode()` and `roleName` the configured
`settings.archon_role_name`.  A `ParseError` becomes the `.error` outcome
(re-raised as HTTP 400).  `plan` is always `[]` here: a coerced parameter
value is never a Python list, so `isinstance(plan, list)` can only hold for
the default `[]`. -/
def decisionFromSpellParser (fuel : Nat) (fantasyMode : Bool) (roleName : String)
    (spell_text : String) : Except String ArchonDecision :=
  match SpellParser.parse fuel spell_text with
  | .error e => .error e
  | .ok parsed =>
    .ok { intent := parsed.action.value
          target_daemon := parsed.daemon.bind daemonTypeOfString
          task := parsed.task
          parameters := parsed.parameters.getD []
          plan := []
          narration :=
            if fantasyMode then
              roleName ++ " contemplates your words, relying on ancient heuristics."
            else "parser_fallback"
          reasoning := "Fallback spell parser engaged."
          confidence := some (6 / 10)
          fallback_used := true
          parsed_confidence := some parsed.confidence }

deriving instance DecidableEq for Except

/-! ### Concrete sample inputs used by witnesses -/

def sampleEvent : ArcaneEvent :=
  { spellName := .summonSpell
    daemonName := some "claude"
    success := true
    description := "" }

/-- A schema-valid directive whose plan mentions an absolute POSIX path. -/
def sampleDirective : ArchonDirective :=
  { intent := .invokeA
    daemon := .claudeF
    task := "inspect the archive"
    safety := {}
    style := {}
    plan := ["read /etc/passwd now", "report back"] }

/-- A schema-valid directive that asks for shell access without permission. -/
def shellDirective : ArchonDirective :=
  { intent := .invokeA
    daemon := .claudeF
    task := "open a SHELL for me"
    safety := {}
    style := {}
    plan := ["spawn shell", "run it"] }

/-- A freshly built non-codegen decision (as `_decision_from_payload`
produces: `fallback_used = False`). -/
def sampleDecision : ArchonDecision :=
  { intent := "summon"
    target_daemon := some .gemini
    task := some "wake up"
    plan := ["greet"] }

/-- A freshly built codegen decision (`intent == "invoke"`, target claude). -/
def sampleCodegenDecision : ArchonDecision :=
  { intent := "invoke"
    target_daemon := some .claude
    task := some "write code"
    plan := ["write it"] }

/-! ## Supporting lemmas -/

lemma DaemonTable.get_set {α : Type} (t : DaemonTable α) (d : DaemonType) (v : α) :
    (t.set d v).get d = v := by
  cases d <;> rfl

lemma ArcaneEventBus.emit_maxHistory (bus : ArcaneEventBus) (e : ArcaneEvent) :
    (bus.emit e).maxHistory = bus.maxHistory := rfl

lemma ArcaneEventBus.emitAll_history (cap : Nat) (hcap : 1 ≤ cap) :
    ∀ (es h : List ArcaneEvent), h.length ≤ cap →
      (ArcaneEventBus.emitAll ⟨h, cap⟩ es).eventHistory
        = (h ++ es).drop (h.length + es.length - cap) := by
  intro es
  induction es with
  | nil =>
    intro h hh
    have hz : h.length - cap = 0 := by omega
    simp [ArcaneEventBus.emitAll, hz]
  | cons e es ih =>
    intro h hh
    show (ArcaneEventBus.emitAll (ArcaneEventBus.emit ⟨h, cap⟩ e) es).eventHistory = _
    by_cases hfull : h.length = cap
    · have hne : h ≠ [] := by
        intro h0
        subst h0
        simp at hfull
        omega
      obtain ⟨a, h', rfl⟩ := List.exists_cons_of_ne_nil hne
      have hemit : ArcaneEventBus.emit ⟨a :: h', cap⟩ e = ⟨h' ++ [e], cap⟩ := by
        simp only [ArcaneEventBus.emit]
        have hc : cap < h'.length + 1 + 1 := by
          simp at hfull
          omega
        simp [hc]
      rw [hemit, ih (h' ++ [e]) (by simp at hfull ⊢; omega)]
      have hlen1 : (h' ++ [e]).length + es.length - cap = es.length := by
        simp at hfull ⊢
        omega
      have hlen2 : (a :: h').length + (e :: es).length - cap = es.length + 1 := by
        simp at hfull ⊢
        omega
      rw [hlen1, hlen2]
      simp [List.append_assoc]
    · have hlt : h.length < cap := lt_of_le_of_ne hh hfull
      have hemit : ArcaneEventBus.emit ⟨h, cap⟩ e = ⟨h ++ [e], cap⟩ := by
        simp only [ArcaneEventBus.emit]
        have hc : ¬ cap < h.length + 1 := by omega
        simp [hc]
      rw [hemit, ih (h ++ [e]) (by simp; omega)]
      have hlen : (h ++ [e]).length + es.length - cap
          = h.length + (e :: es).length - cap := by
        simp
        omega
      rw [hlen]
      simp [List.append_assoc]

/-! ## Claim theorems -/

/-- C8: starting from the empty default bus (capacity 100), after emitting
`100 + k` events the history holds exactly 100 events — the first `k`
emitted are evicted oldest-first — and `get_recent_events 100` returns the
surviving events in emission order, most recent last. -/
theorem eventBus_fifo_bound (es : List ArcaneEvent) (k : Nat)
    (hlen : es.length = 100 + k) :
    (ArcaneEventBus.new.emitAll es).eventHistory = es.drop k ∧
    (ArcaneEventBus.new.emitAll es).eventHistory.length = 100 ∧
    (ArcaneEventBus.new.emitAll es).get_recent_events 100
      = (es.drop k).map ArcaneEvent.toDict := by
  have h1 : (ArcaneEventBus.new.emitAll es).eventHistory = es.drop k := by
    have h := ArcaneEventBus.emitAll_history 100 (by omega) es [] (by simp)
    have hk : (List.nil (α := ArcaneEvent)).length + es.length - 100 = k := by
      simp [hlen]
    rw [hk] at h
    simpa [ArcaneEventBus.new] using h
  have h2 : (ArcaneEventBus.new.emitAll es).eventHistory.length = 100 := by
    rw [h1]
    simp [hlen]
  refine ⟨h1, h2, ?_⟩
  unfold ArcaneEventBus.get_recent_events pySliceFrom
  rw [h1]
  have hL : (es.drop k).length = 100 := by simp [hlen]
  have hneg : (-100 : Int) < 0 := by decide
  simp only [hneg, if_true, hL]
  norm_num

/-- C8 witness: 101 concrete events overflow the capacity by one; the first
is evicted and the remaining 100 are reported in order. -/
theorem eventBus_fifo_bound_witness :
    (ArcaneEventBus.new.emitAll (List.replicate 101 sampleEvent)).eventHistory
      = (List.replicate 101 sampleEvent).drop 1 ∧
    (ArcaneEventBus.new.emitAll (List.replicate 101 sampleEvent)).eventHistory.length = 100 ∧
    (ArcaneEventBus.new.emitAll (List.replicate 101 sampleEvent)).get_recent_events 100
      = ((List.replicate 101 sampleEvent).drop 1).map ArcaneEvent.toDict :=
  eventBus_fifo_bound (List.replicate 101 sampleEvent) 1 (by simp)

/-- C10: `get_recent_events 0` returns the whole stored history (the Python
slice `[-0:]` is `[0:]`), and the `count` argument is an upper bound on the
result length for every `count ≥ 1`. -/
theorem get_recent_events_zero_returns_all (bus : ArcaneEventBus) :
    bus.get_recent_events 0 = bus.eventHistory.map ArcaneEvent.toDict ∧
    ∀ count : Int, 1 ≤ count →
      ((bus.get_recent_events count).length : Int) ≤ count := by
  constructor
  · simp [ArcaneEventBus.get_recent_events, pySliceFrom]
  · intro count hc
    simp only [ArcaneEventBus.get_recent_events, pySliceFrom, List.length_map]
    have hneg : -count < 0 := by omega
    simp only [hneg, if_true, List.length_drop]
    omega

/-- C10 witness: a concrete one-event bus. -/
theorem get_recent_events_zero_witness :
    (ArcaneEventBus.new.emit sampleEvent).get_recent_events 0
      = (ArcaneEventBus.new.emit sampleEvent).eventHistory.map ArcaneEvent.toDict ∧
    (((ArcaneEventBus.new.emit sampleEvent).get_recent_events 3).length : Int) ≤ 3 :=
  ⟨(get_recent_events_zero_returns_all (ArcaneEventBus.new.emit sampleEvent)).1,
   (get_recent_events_zero_returns_all (ArcaneEventBus.new.emit sampleEvent)).2 3 (by decide)⟩

/-- C5: for a decision with `fallback_used` initially false (as freshly built
from a validated planner payload), the latency policy sets
`fallback_used = true` exactly when the elapsed time exceeds the class budget
(`0.6` for non-codegen, `2.5` for codegen = intent `invoke` targeting
claude); when triggered it prepends exactly one explanatory plan step and
forces the target to `liquidmetal`, and when not triggered the decision is
returned unchanged — the single application performs no further budget check
on the rerouted decision. -/
theorem latency_policy_threshold (d : ArchonDecision) (t : Rat)
    (h : d.fallback_used = false) :
    ((applyLatencyPolicy d t).fallback_used = true ↔
      (if d.is_codegen then CODEGEN_LATENCY_BUDGET < t
       else SIMPLE_LATENCY_BUDGET < t)) ∧
    ((applyLatencyPolicy d t).fallback_used = true →
      (applyLatencyPolicy d t).target_daemon = some .liquidmetal ∧
      ∃ msg, (applyLatencyPolicy d t).plan = msg :: d.plan) ∧
    ((applyLatencyPolicy d t).fallback_used = false →
      applyLatencyPolicy d t = d) := by
  unfold applyLatencyPolicy
  by_cases hc : d.is_codegen
  · by_cases ht : CODEGEN_LATENCY_BUDGET < t
    · simp [hc, ht]
    · simp [hc, ht, h]
  · by_cases ht : SIMPLE_LATENCY_BUDGET < t
    · simp [hc, ht]
    · simp [hc, ht, h]

/-- C5 witness: a concrete simple decision measured at 1 second. -/
theorem latency_policy_threshold_witness :
    ((applyLatencyPolicy sampleDecision 1).fallback_used = true ↔
      (if sampleDecision.is_codegen then CODEGEN_LATENCY_BUDGET < 1
       else SIMPLE_LATENCY_BUDGET < 1)) ∧
    ((applyLatencyPolicy sampleDecision 1).fallback_used = true →
      (applyLatencyPolicy sampleDecision 1).target_daemon = some .liquidmetal ∧
      ∃ msg, (applyLatencyPolicy sampleDecision 1).plan = msg :: sampleDecision.plan) ∧
    ((applyLatencyPolicy sampleDecision 1).fallback_used = false →
      applyLatencyPolicy sampleDecision 1 = sampleDecision) :=
  latency_policy_threshold sampleDecision 1 rfl

/-- C3: for a payload that passed the schema parse with
`safety.allowShell == false`, the validator rejects with the shell policy
violation and logs exactly one `REJECTED_PAYLOAD` audit entry (reason
`shell_command_disallowed`) exactly when the task or a plan entry contains
"shell" case-insensitively; otherwise no policy rejection happens and
nothing is logged. -/
theorem shell_policy_rejection (d : ArchonDirective) (fm : Bool)
    (hs : d.safety.allow_shell = false) :
    ((d.task :: d.plan).any mentionsShell = true →
      validate_archon_payload (.ok d) fm
        = (.error .shellDisallowed,
           [⟨"REJECTED_PAYLOAD", "shell_command_disallowed"⟩])) ∧
    ((d.task :: d.plan).any mentionsShell = false →
      (∃ cleaned, (validate_archon_payload (.ok d) fm).1 = .ok cleaned) ∧
      (validate_archon_payload (.ok d) fm).2 = []) := by
  constructor
  · intro hm
    simp [validate_archon_payload, hs, hm]
  · intro hm
    constructor
    · by_cases hfm : fm
      · exact ⟨{ d with plan := d.plan.map redactPaths },
               by simp [validate_archon_payload, hs, hm, hfm]⟩
      · exact ⟨{ d with style := { d.style with fantasy := false } },
               by simp [validate_archon_payload, hs, hm, hfm]⟩
    · simp [validate_archon_payload, hs, hm]

/-- C3 witness: a shell-mentioning payload is rejected with one audit line;
a clean payload passes with none. -/
theorem shell_policy_rejection_witness :
    (validate_archon_payload (.ok shellDirective) true
      = (.error .shellDisallowed,
         [⟨"REJECTED_PAYLOAD", "shell_command_disallowed"⟩])) ∧
    (∃ cleaned, (validate_archon_payload (.ok sampleDirective) true).1 = .ok cleaned) ∧
    (validate_archon_payload (.ok sampleDirective) true).2 = [] :=
  ⟨(shell_policy_rejection shellDirective true rfl).1 (by decide),
   ((shell_policy_rejection sampleDirective true rfl).2 (by decide)).1,
   ((shell_policy_rejection sampleDirective true rfl).2 (by decide)).2⟩

/-- C2: for every known worker, (a) from a dormant state `summon` succeeds
and an immediate second `summon` fails with the already-summoned error,
leaving the registry unchanged; (b) `invoke_daemon` on a dormant worker
fails with the not-summoned error and changes nothing; (c) from a summoned
state `banish_daemon` succeeds and a second `banish_daemon` fails with the
not-summoned error, again changing nothing. -/
theorem worker_lifecycle_errors (reg : DaemonRegistry) (W : DaemonType)
    (hl : Bool) (lim : Nat) (task : String) (backing : Except String String)
    (elapsed : Rat) :
    ((reg.daemons.get W).is_summoned = false →
      ((reg.summon W hl lim).1
          = .ok { reg.daemons.get W with is_summoned := true, invocation_count := 0 }) ∧
      (((reg.summon W hl lim).2.1.summon W hl lim).1 = .error .alreadySummoned) ∧
      (((reg.summon W hl lim).2.1.summon W hl lim).2.1 = (reg.summon W hl lim).2.1) ∧
      ((reg.invoke_daemon W task backing elapsed hl lim).1 = .error .notSummoned) ∧
      ((reg.invoke_daemon W task backing elapsed hl lim).2.1 = reg)) ∧
    ((reg.daemons.get W).is_summoned = true →
      ((reg.banish_daemon W hl lim).1.isOk = true) ∧
      (((reg.banish_daemon W hl lim).2.1.banish_daemon W hl lim).1
          = .error .notSummoned) ∧
      (((reg.banish_daemon W hl lim).2.1.banish_daemon W hl lim).2.1
          = (reg.banish_daemon W hl lim).2.1)) := by
  constructor
  · intro h
    refine ⟨?_, ?_, ?_, ?_, ?_⟩ <;>
      simp [DaemonRegistry.summon, DaemonRegistry.invoke_daemon, h,
            DaemonTable.get_set]
  · intro h
    refine ⟨?_, ?_, ?_⟩ <;>
      simp [DaemonRegistry.banish_daemon, h, DaemonTable.get_set, Except.isOk,
            Except.toBool]

/-- C2 witness: the fresh registry (claude dormant), and the registry right
after a first summon of claude (claude summoned). -/
theorem worker_lifecycle_errors_witness :
    (((DaemonRegistry.init.summon .claude false 0).1
        = .ok { DaemonRegistry.init.daemons.get .claude with
                  is_summoned := true, invocation_count := 0 }) ∧
     (((DaemonRegistry.init.summon .claude false 0).2.1.summon .claude false 0).1
        = .error .alreadySummoned) ∧
     (((DaemonRegistry.init.summon .claude false 0).2.1.summon .claude false 0).2.1
        = (DaemonRegistry.init.summon .claude false 0).2.1) ∧
     ((DaemonRegistry.init.invoke_daemon .claude "analyze" (.ok "done") 1 false 0).1
        = .error .notSummoned) ∧
     ((DaemonRegistry.init.invoke_daemon .claude "analyze" (.ok "done") 1 false 0).2.1
        = DaemonRegistry.init)) ∧
    ((((DaemonRegistry.init.summon .claude false 0).2.1.banish_daemon .claude false 0).1.isOk
        = true) ∧
     ((((DaemonRegistry.init.summon .claude false 0).2.1.banish_daemon .claude false 0).2.1.banish_daemon
          .claude false 0).1 = .error .notSummoned) ∧
     ((((DaemonRegistry.init.summon .claude false 0).2.1.banish_daemon .claude false 0).2.1.banish_daemon
          .claude false 0).2.1
        = ((DaemonRegistry.init.summon .claude false 0).2.1.banish_daemon .claude false 0).2.1)) :=
  ⟨(worker_lifecycle_errors DaemonRegistry.init .claude false 0 "analyze"
      (.ok "done") 1).1 rfl,
   (worker_lifecycle_errors (DaemonRegistry.init.summon .claude false 0).2.1 .claude
      false 0 "analyze" (.ok "done") 1).2 rfl⟩

/-- C7: invoking a summoned, MCP-registered worker never propagates a
backing-capability exception: whatever the backing call's outcome, the call
returns normally, with `success = false` and the error text in the result
payload when the backing call raised, and the invocation is still counted
and appended to the worker's history. -/
theorem invoke_catches_backing_errors (reg : DaemonRegistry) (name : DaemonType)
    (task : String) (backing : Except String String) (elapsed : Rat)
    (hl : Bool) (lim : Nat)
    (hsum : (reg.daemons.get name).is_summoned = true)
    (hreg : (reg.daemon_states.get name).mcp_registered = true)
    (hcli : name.value ∈ reg.mcp_client.registered_tools) :
    ∃ ret : InvokeReturn,
      (reg.invoke_daemon name task backing elapsed hl lim).1 = .ok ret ∧
      (∀ e, backing = .error e → ret.success = false ∧ ret.result = .errorText e) ∧
      (∀ out, backing = .ok out → ret.success = true ∧ ret.result = .response out) ∧
      ((reg.invoke_daemon name task backing elapsed hl lim).2.1.daemons.get name).invocation_count
        = (reg.daemons.get name).invocation_count + 1 ∧
      ((reg.invoke_daemon name task backing elapsed hl lim).2.1.daemon_states.get name).invocation_history
        = (reg.daemon_states.get name).invocation_history
            ++ [{ task := task, execution_time := elapsed, success := ret.success }] := by
  cases backing with
  | ok out =>
    refine ⟨{ daemon := { reg.daemons.get name with
                invocation_count := (reg.daemons.get name).invocation_count + 1 }
              result := .response out
              execution_time := elapsed
              success := true
              invocation_number := (reg.daemons.get name).invocation_count + 1 }, ?_, ?_, ?_, ?_, ?_⟩ <;>
      simp [DaemonRegistry.invoke_daemon, RaindropMCPClient.invoke_tool, hsum, hreg,
            hcli, DaemonTable.get_set, DaemonState.record_invocation]
  | error e =>
    refine ⟨{ daemon := { reg.daemons.get name with
                invocation_count := (reg.daemons.get name).invocation_count + 1 }
              result := .errorText e
              execution_time := elapsed
              success := false
              invocation_number := (reg.daemons.get name).invocation_count + 1 }, ?_, ?_, ?_, ?_, ?_⟩ <;>
      simp [DaemonRegistry.invoke_daemon, RaindropMCPClient.invoke_tool, hsum, hreg,
            hcli, DaemonTable.get_set, DaemonState.record_invocation]

/-- C7 witness: invoke claude right after summoning it, with a backing call
that raises. -/
theorem invoke_catches_backing_errors_witness :
    ∃ ret : InvokeReturn,
      ((DaemonRegistry.init.summon .claude false 0).2.1.invoke_daemon .claude "probe"
          (.error "boom") 1 false 0).1 = .ok ret ∧
      (∀ e, (Except.error "boom" : Except String String) = .error e →
        ret.success = false ∧ ret.result = .errorText e) ∧
      (∀ out, (Except.error "boom" : Except String String) = .ok out →
        ret.success = true ∧ ret.result = .response out) ∧
      (((DaemonRegistry.init.summon .claude false 0).2.1.invoke_daemon .claude "probe"
          (.error "boom") 1 false 0).2.1.daemons.get .claude).invocation_count
        = ((DaemonRegistry.init.summon .claude false 0).2.1.daemons.get .claude).invocation_count + 1 ∧
      (((DaemonRegistry.init.summon .claude false 0).2.1.invoke_daemon .claude "probe"
          (.error "boom") 1 false 0).2.1.daemon_states.get .claude).invocation_history
        = ((DaemonRegistry.init.summon .claude false 0).2.1.daemon_states.get .claude).invocation_history
            ++ [{ task := "probe", execution_time := 1, success := ret.success }] :=
  invoke_catches_backing_errors (DaemonRegistry.init.summon .claude false 0).2.1
    .claude "probe" (.error "boom") 1 false 0 rfl rfl (by decide)

/-- C1 (code bug): `summon` on a dormant worker succeeds, but because
`_safe_create_task` calls itself instead of `loop.create_task`, the
`emit_summon` coroutine is never scheduled in any context — with or without
a running event loop, and at every recursion limit — so zero events (not
one) reach the event bus. -/
theorem summon_emits_no_events (hl : Bool) (lim : Nat) :
    ((DaemonRegistry.init.summon .claude hl lim).1
        = .ok { DaemonRegistry.init.daemons.get .claude with
                  is_summoned := true, invocation_count := 0 }) ∧
    (DaemonRegistry.init.summon .claude hl lim).2.2 = [] ∧
    (∀ coro : List ArcaneEvent, safeCreateTask hl coro lim = []) := by
  have hsafe : ∀ coro : List ArcaneEvent, safeCreateTask hl coro lim = [] := by
    intro coro
    induction lim with
    | zero => rfl
    | succ n ih =>
      show (if hl then safeCreateTask hl coro n else []) = []
      cases hl with
      | true => simpa using ih
      | false => rfl
  refine ⟨?_, ?_, hsafe⟩ <;>
    simp [DaemonRegistry.summon, DaemonRegistry.init, DaemonTable.get,
          DaemonTable.set, hsafe]

/-! ### Redaction lemmas (for C4) -/

lemma redactGoF_fuel_irrel : ∀ (fuel₁ : Nat) (s : List Char) (fuel₂ : Nat),
    s.length ≤ fuel₁ → s.length ≤ fuel₂ → redactGoF fuel₁ s = redactGoF fuel₂ s := by
  intro fuel₁
  induction fuel₁ with
  | zero =>
    intro s fuel₂ h₁ _
    have hs : s = [] := by
      cases s with
      | nil => rfl
      | cons c t => simp at h₁
    subst hs
    cases fuel₂ <;> rfl
  | succ f ih =>
    intro s fuel₂ h₁ h₂
    cases s with
    | nil => cases fuel₂ <;> rfl
    | cons c rest =>
      obtain ⟨f₂, rfl⟩ : ∃ f₂, fuel₂ = f₂ + 1 := by
        cases fuel₂ with
        | zero => simp at h₂
        | succ f₂ => exact ⟨f₂, rfl⟩
      show (if redactMatchLen (c :: rest) = 0 then c :: redactGoF f rest
            else redactMarker ++ redactGoF f ((c :: rest).drop (redactMatchLen (c :: rest))))
          = (if redactMatchLen (c :: rest) = 0 then c :: redactGoF f₂ rest
            else redactMarker ++ redactGoF f₂ ((c :: rest).drop (redactMatchLen (c :: rest))))
      by_cases hm : redactMatchLen (c :: rest) = 0
      · rw [if_pos hm, if_pos hm,
            ih rest f₂ (by simp at h₁; omega) (by simp at h₂; omega)]
      · have hm1 : 1 ≤ redactMatchLen (c :: rest) := Nat.one_le_iff_ne_zero.mpr hm
        rw [if_neg hm, if_neg hm,
            ih ((c :: rest).drop (redactMatchLen (c :: rest))) f₂
              (by simp at h₁ ⊢; omega) (by simp at h₂ ⊢; omega)]

lemma redactGo_nil : redactGo [] = [] := rfl

lemma redactGo_cons (c : Char) (rest : List Char) :
    redactGo (c :: rest) =
      if redactMatchLen (c :: rest) = 0 then c :: redactGo rest
      else redactMarker ++ redactGo ((c :: rest).drop (redactMatchLen (c :: rest))) := by
  show (if redactMatchLen (c :: rest) = 0 then c :: redactGoF rest.length rest
        else redactMarker ++ redactGoF rest.length ((c :: rest).drop (redactMatchLen (c :: rest))))
      = _
  by_cases hm : redactMatchLen (c :: rest) = 0
  · rw [if_pos hm, if_pos hm]
    rfl
  · have hm1 : 1 ≤ redactMatchLen (c :: rest) := Nat.one_le_iff_ne_zero.mpr hm
    rw [if_neg hm, if_neg hm]
    unfold redactGo
    rw [redactGoF_fuel_irrel rest.length _ _ (by simp; omega) le_rfl]

lemma containsPathLike_cons (c : Char) (u : List Char) :
    containsPathLike (c :: u) = ((redactMatchLen (c :: u) != 0) || containsPathLike u) := rfl

lemma isPySpace_props (c : Char) (h : isPySpace c = true) :
    isAsciiAlpha c = false ∧ ¬ c = '/' ∧ ¬ c = ':' ∧ ¬ c = '\\' := by
  simp only [isPySpace, Bool.or_eq_true, decide_eq_true_eq] at h
  rcases h with ((((h | h) | h) | h) | h) | h <;> subst h <;> decide

lemma countNonSpace_cons (c : Char) (t : List Char) :
    countNonSpace (c :: t) = if isPySpace c then 0 else countNonSpace t + 1 := by
  by_cases hsp : isPySpace c <;>
    simp [countNonSpace, List.takeWhile, hsp]

lemma redactMatchLen_nonstarter (c : Char) (t : List Char)
    (h1 : isAsciiAlpha c = false) (h2 : ¬ c = '/') :
    redactMatchLen (c :: t) = 0 := by
  unfold redactMatchLen driveMatchLen posixMatchLen
  simp [h1, h2]

lemma redactMatchLen_pair (c₁ c₂ : Char) (t : List Char)
    (h1 : ¬ c₁ = '/') (h2 : ¬ c₂ = ':') :
    redactMatchLen (c₁ :: c₂ :: t) = 0 := by
  unfold redactMatchLen driveMatchLen posixMatchLen
  by_cases ha : isAsciiAlpha c₁ <;> simp [ha, h1, h2]

lemma redactMatchLen_single (c : Char) (h : ¬ c = '/') :
    redactMatchLen [c] = 0 := by
  unfold redactMatchLen driveMatchLen posixMatchLen
  by_cases ha : isAsciiAlpha c <;> simp [ha, h]

lemma redactMatchLen_deep (c₁ c₂ c₃ : Char) (t : List Char)
    (h1 : ¬ c₁ = '/') (h2 : c₃ = '\\' → countNonSpace t = 0) :
    redactMatchLen (c₁ :: c₂ :: c₃ :: t) = 0 := by
  unfold redactMatchLen driveMatchLen posixMatchLen
  by_cases ha : isAsciiAlpha c₁
  · by_cases hcol : c₂ = ':'
    · by_cases hbs : c₃ = '\\'
      · simp [ha, h1, hcol, hbs, h2 hbs]
      · simp [ha, h1, hcol, hbs]
    · simp [ha, h1, hcol]
  · simp [ha, h1]

lemma redactMatchLen_pair_short (c₁ c₂ : Char) (h1 : ¬ c₁ = '/') :
    redactMatchLen [c₁, c₂] = 0 := by
  unfold redactMatchLen driveMatchLen posixMatchLen
  by_cases ha : isAsciiAlpha c₁
  · by_cases hcol : c₂ = ':' <;> simp [ha, h1, hcol]
  · simp [ha, h1]

lemma redactGo_head_cases (c : Char) (rest : List Char) :
    redactGo (c :: rest) = c :: redactGo rest ∨
    ∃ u, redactGo (c :: rest) = '[' :: u := by
  rw [redactGo_cons]
  by_cases hm : redactMatchLen (c :: rest) = 0
  · left
    rw [if_pos hm]
  · right
    rw [if_neg hm]
    exact ⟨_, rfl⟩

lemma redactMatchLen_slash (rest : List Char) :
    redactMatchLen ('/' :: rest)
      = if countNonSpace rest = 0 then 0 else 1 + countNonSpace rest := by
  have ha : isAsciiAlpha '/' = false := by decide
  unfold redactMatchLen driveMatchLen posixMatchLen
  simp [ha]

lemma redactMatchLen_drive (c : Char) (rest : List Char)
    (ha : isAsciiAlpha c = true) (hs : ¬ c = '/') :
    redactMatchLen (c :: ':' :: '\\' :: rest)
      = if countNonSpace rest = 0 then 0 else 3 + countNonSpace rest := by
  unfold redactMatchLen driveMatchLen posixMatchLen
  by_cases hc : countNonSpace rest = 0 <;> simp [ha, hs, hc]

/-- If a space character heads `s`, then `redactGo s` also starts with it,
so its non-space prefix is empty. -/
lemma countNonSpace_redactGo_zero (s : List Char) (h : countNonSpace s = 0) :
    countNonSpace (redactGo s) = 0 := by
  cases s with
  | nil => rfl
  | cons r t =>
    have hsp : isPySpace r = true := by
      rw [countNonSpace_cons] at h
      by_cases hr : isPySpace r
      · exact hr
      · simp [hr] at h
    obtain ⟨hra, hrs, -, -⟩ := isPySpace_props r hsp
    rw [redactGo_cons, if_pos (redactMatchLen_nonstarter r t hra hrs),
        countNonSpace_cons]
    simp [hsp]

/-- If no `REDACT_PATTERN` match starts at `c` before the tail is redacted,
none starts there afterwards either. -/
lemma redactMatchLen_redactGo_head (c : Char) (rest : List Char)
    (h : redactMatchLen (c :: rest) = 0) :
    redactMatchLen (c :: redactGo rest) = 0 := by
  by_cases hslash : c = '/'
  · subst hslash
    have hp : countNonSpace rest = 0 := by
      rw [redactMatchLen_slash] at h
      by_cases hcnt : countNonSpace rest = 0
      · exact hcnt
      · simp [hcnt] at h
    rw [redactMatchLen_slash]
    simp [countNonSpace_redactGo_zero rest hp]
  · by_cases halpha : isAsciiAlpha c
    · cases rest with
      | nil => simpa [redactGo_nil] using redactMatchLen_single c hslash
      | cons c₂ rest₂ =>
        by_cases hcol : c₂ = ':'
        · subst hcol
          have hg2 : redactGo (':' :: rest₂) = ':' :: redactGo rest₂ := by
            rw [redactGo_cons,
                if_pos (redactMatchLen_nonstarter ':' rest₂ (by decide) (by decide))]
          rw [hg2]
          cases rest₂ with
          | nil => simpa [redactGo_nil] using redactMatchLen_pair_short c ':' hslash
          | cons c₃ rest₃ =>
            by_cases hbs : c₃ = '\\'
            · subst hbs
              have hcnt : countNonSpace rest₃ = 0 := by
                rw [redactMatchLen_drive c rest₃ halpha hslash] at h
                by_cases hc : countNonSpace rest₃ = 0
                · exact hc
                · simp [hc] at h
              have hg3 : redactGo ('\\' :: rest₃) = '\\' :: redactGo rest₃ := by
                rw [redactGo_cons,
                    if_pos (redactMatchLen_nonstarter '\\' rest₃ (by decide) (by decide))]
              rw [hg3, redactMatchLen_drive c _ halpha hslash]
              simp [countNonSpace_redactGo_zero rest₃ hcnt]
            · rcases redactGo_head_cases c₃ rest₃ with hcase | ⟨u, hcase⟩
              · rw [hcase]
                exact redactMatchLen_deep c ':' c₃ _ hslash (fun hb => absurd hb hbs)
              · rw [hcase]
                exact redactMatchLen_deep c ':' '[' _ hslash
                  (fun hb => absurd hb (by decide))
        · rcases redactGo_head_cases c₂ rest₂ with hcase | ⟨u, hcase⟩
          · rw [hcase]
            exact redactMatchLen_pair c c₂ _ hslash hcol
          · rw [hcase]
            exact redactMatchLen_pair c '[' _ hslash (by decide)
    · exact redactMatchLen_nonstarter c _ (eq_false_of_ne_true halpha) hslash

/-- Prepending a block that contains no `/` and no `:` and does not end in a
letter cannot create or hide a path-like match. -/
lemma containsPathLike_clean_append : ∀ (m t : List Char),
    (∀ c ∈ m, ¬ c = '/' ∧ ¬ c = ':') →
    (∀ x, m.getLast? = some x → isAsciiAlpha x = false) →
    containsPathLike (m ++ t) = containsPathLike t := by
  intro m
  induction m with
  | nil =>
    intro t _ _
    rfl
  | cons c m' ih =>
    intro t hm hlast
    cases m' with
    | nil =>
      have hx : isAsciiAlpha c = false := hlast c rfl
      have hc : ¬ c = '/' := (hm c (by simp)).1
      show containsPathLike (c :: t) = containsPathLike t
      rw [containsPathLike_cons, redactMatchLen_nonstarter c t hx hc]
      simp
    | cons d m'' =>
      have hc : ¬ c = '/' := (hm c (by simp)).1
      have hd : ¬ d = ':' := (hm d (by simp)).2
      show containsPathLike (c :: d :: (m'' ++ t)) = containsPathLike t
      rw [containsPathLike_cons, redactMatchLen_pair c d _ hc hd]
      simp only [bne_self_eq_false, Bool.false_or]
      exact ih t (fun x hx => hm x (by simp [hx]))
        (fun x hx => hlast x (by rw [List.getLast?_cons_cons]; exact hx))

lemma containsPathLike_marker_append (t : List Char) :
    containsPathLike (redactMarker ++ t) = containsPathLike t := by
  apply containsPathLike_clean_append
  · decide
  · intro x hx
    rw [show redactMarker.getLast? = some ']' from rfl] at hx
    cases hx
    decide

lemma containsPathLike_redactGo_len : ∀ (n : Nat) (s : List Char), s.length ≤ n →
    containsPathLike (redactGo s) = false := by
  intro n
  induction n with
  | zero =>
    intro s h
    have hs : s = [] := by
      cases s with
      | nil => rfl
      | cons c t => simp at h
    subst hs
    rfl
  | succ n ih =>
    intro s h
    cases s with
    | nil => rfl
    | cons c rest =>
      rw [redactGo_cons]
      by_cases hm : redactMatchLen (c :: rest) = 0
      · rw [if_pos hm, containsPathLike_cons, redactMatchLen_redactGo_head c rest hm]
        simp only [bne_self_eq_false, Bool.false_or]
        exact ih rest (by simp at h; omega)
      · rw [if_neg hm, containsPathLike_marker_append]
        refine ih _ ?_
        have h1 : 1 ≤ redactMatchLen (c :: rest) := Nat.one_le_iff_ne_zero.mpr hm
        simp only [List.length_drop, List.length_cons] at h ⊢
        omega

/-- The redacted form of any string contains no substring that
`REDACT_PATTERN` would still match. -/
lemma redactGo_no_pathlike (s : List Char) : containsPathLike (redactGo s) = false :=
  containsPathLike_redactGo_len s.length s le_rfl

/-- C4: for every payload accepted by the validator, in fantasy (strict)
mode each returned plan entry is the regex-substituted original — every
absolute-path-like substring replaced by the `[path-redacted]` marker — and
no path-like substring survives in any returned entry; with strict mode off
the plan is returned unredacted and `style.fantasy` is forced to false. -/
theorem plan_redaction (d : ArchonDirective) :
    (∀ cleaned, (validate_archon_payload (.ok d) true).1 = .ok cleaned →
        cleaned.plan = d.plan.map redactPaths ∧
        ∀ step ∈ cleaned.plan, containsPathLike step.data = false) ∧
    (∀ cleaned, (validate_archon_payload (.ok d) false).1 = .ok cleaned →
        cleaned.plan = d.plan ∧ cleaned.style.fantasy = false) := by
  constructor
  · intro cleaned hc
    simp only [validate_archon_payload] at hc
    split at hc
    · simp at hc
    · simp only [if_true, Except.ok.injEq] at hc
      subst hc
      refine ⟨rfl, ?_⟩
      intro step hstep
      simp only [List.mem_map] at hstep
      obtain ⟨x, -, rfl⟩ := hstep
      exact redactGo_no_pathlike x.data
  · intro cleaned hc
    simp only [validate_archon_payload] at hc
    split at hc
    · simp at hc
    · simp only [Bool.false_eq_true, if_false, Except.ok.injEq] at hc
      subst hc
      exact ⟨rfl, rfl⟩

/-- C4 witness: a concrete plan entry containing `/etc/passwd` comes back
with the marker and no surviving path substring; with strict mode off the
same payload keeps its plan and loses the fantasy flag. -/
theorem plan_redaction_witness :
    (({ sampleDirective with
          plan := ["read [path-redacted] now", "report back"] } : ArchonDirective).plan
        = sampleDirective.plan.map redactPaths ∧
      ∀ step ∈ ({ sampleDirective with
          plan := ["read [path-redacted] now", "report back"] } : ArchonDirective).plan,
        containsPathLike step.data = false) ∧
    (({ sampleDirective with
          style := { sampleDirective.style with fantasy := false } } : ArchonDirective).plan
        = sampleDirective.plan ∧
      ({ sampleDirective with
          style := { sampleDirective.style with fantasy := false } } : ArchonDirective).style.fantasy
        = false) :=
  ⟨(plan_redaction sampleDirective).1
      { sampleDirective with plan := ["read [path-redacted] now", "report back"] }
      (by decide),
   (plan_redaction sampleDirective).2
      { sampleDirective with style := { sampleDirective.style with fantasy := false } }
      (by decide)⟩

/-- C6 counterexample: with no external planner, routing "summon claude"
does produce the fallback decision with intent summon and target claude, but
its `confidence` field is the fixed fallback value 0.6, not ≈ 0.8. -/
theorem summon_claude_confidence_counterexample :
    (decisionFromSpellParser 300 true "The Archon" "summon claude").toOption.map
        ArchonDecision.confidence = some (some (6 / 10)) ∧
    ¬ ((6 : Rat) / 10 = 8 / 10) := by
  constructor
  · rfl
  · norm_num

/-- C6 (amended): with no external planner, routing "summon claude" takes
the pattern-matcher fallback path and yields a decision with intent
`summon`, target `claude`, `usedFallback = true` and fixed confidence 0.6;
the ≈ 0.8 confidence (priority 80 / 100) belongs to the underlying
`ParsedSpell` produced by the pattern matcher, not to the decision. -/
theorem summon_claude_fallback_decision (fm : Bool) (role : String) :
    (decisionFromSpellParser 300 fm role "summon claude").toOption.map
        (fun d => (d.intent, d.target_daemon, d.fallback_used, d.confidence))
      = some ("summon", some DaemonType.claude, true, some (6 / 10)) ∧
    (SpellParser.parse 300 "summon claude").toOption.map ParsedSpell.confidence
      = some (4 / 5) := by
  constructor
  · cases fm <;> rfl
  · have h : SpellParser.parse 300 "summon claude" = .ok
        { action := .summonS, daemon := some "claude", task := none,
          parameters := none, confidence := pyMinRat 1 ((80 : Rat) / 100),
          raw_input := "summon claude" } := rfl
    rw [h]
    show some (pyMinRat 1 ((80 : Rat) / 100)) = some (4 / 5)
    norm_num [pyMinRat]

/-- C9: `extract_parameters` coerces each `with key=value` token in the
documented order — boolean literal first, then all-digit integer, then
`float()`-parseable, else kept as a string — and on a concrete task the
matched `with ...` substrings are removed from the returned text with the
remaining whitespace collapsed. -/
theorem parameter_extraction_coercion :
    (∀ v : List Char, lowerStr v = "true".data → coerceParamValue v = .boolV true) ∧
    (∀ v : List Char, lowerStr v = "false".data → coerceParamValue v = .boolV false) ∧
    (∀ v : List Char, ¬ lowerStr v = "true".data → ¬ lowerStr v = "false".data →
      pyIsDigit v = true → coerceParamValue v = .intV (digitsToNat v)) ∧
    (∀ v : List Char, ¬ lowerStr v = "true".data → ¬ lowerStr v = "false".data →
      pyIsDigit v = false → pyFloatAcceptable v = true →
      coerceParamValue v = .floatV ⟨v⟩) ∧
    (∀ v : List Char, ¬ lowerStr v = "true".data → ¬ lowerStr v = "false".data →
      pyIsDigit v = false → pyFloatAcceptable v = false →
      coerceParamValue v = .strV ⟨v⟩) ∧
    extract_parameters 300 "analyze the data with depth=high with timeout=30 with verbose=true"
      = ("analyze the data",
         [("depth", .strV "high"), ("timeout", .intV 30), ("verbose", .boolV true)]) ∧
    extract_parameters 300 "scan the  vault   with verbose=true please"
      = ("scan the vault please", [("verbose", .boolV true)]) := by
  refine ⟨?_, ?_, ?_, ?_, ?_, rfl, rfl⟩
  · intro v h
    simp [coerceParamValue, h]
  · intro v h
    have hne : ¬ lowerStr v = "true".data := by
      rw [h]
      decide
    simp [coerceParamValue, h, hne]
  · intro v h1 h2 hd
    simp [coerceParamValue, h1, h2, hd]
  · intro v h1 h2 hd hf
    simp [coerceParamValue, h1, h2, hd, hf]
  · intro v h1 h2 hd hf
    simp [coerceParamValue, h1, h2, hd, hf]

/-- C9 witness: one value of each coercion class. -/
theorem parameter_extraction_coercion_witness :
    coerceParamValue "TRUE".data = .boolV true ∧
    coerceParamValue "30".data = .intV (digitsToNat "30".data) ∧
    coerceParamValue "1.5".data = .floatV "1.5" ∧
    coerceParamValue "high".data = .strV "high" :=
  ⟨parameter_extraction_coercion.1 "TRUE".data (by decide),
   parameter_extraction_coercion.2.2.1 "30".data (by decide) (by decide) (by decide),
   parameter_extraction_coercion.2.2.2.1 "1.5".data (by decide) (by decide)
     (by decide) (by decide),
   parameter_extraction_coercion.2.2.2.2.1 "high".data (by decide) (by decide)
     (by decide) (by decide)⟩

end ArcaneOS
